import Mathlib

/-!
Verification development for the anacron background-task package.

The development shallowly embeds the persistent task/result store
(`sql_interface.py`), the settings bookkeeping, the worker post-processing
step (`worker.py`), the cron decorator registration logic (`decorators.py`),
the engine start path (`engine.py`) and a model of the cron scheduler
(the `schedule` module referenced by `decorators.py`).

Timestamps are modelled by a minute-resolution calendar structure
`DateTime`; the SQLite `schedule <= ?` comparison on ISO-formatted
datetimes is modelled through the order embedding `DateTime.absMinutes`.
Pickled argument blobs are modelled by an executable token serializer
over a universe `PyValue` of native Python values, including
dictionaries with non-string keys.
-/

namespace Anacron

/-- Minute-resolution timestamp, mirroring `datetime.datetime` as used by
the schedule columns (sub-minute parts play no role in the claims). -/
structure DateTime where
  year : Nat
  month : Nat
  day : Nat
  hour : Nat
  minute : Nat
deriving DecidableEq, Repr

/-- Linearization of a `DateTime`: lexicographic field order packed into a
single natural number (13 months and 32 days of padding keep the packing
monotone across calendar rollovers). -/
def DateTime.absMinutes (t : DateTime) : Nat :=
  (((t.year * 13 + t.month) * 32 + t.day) * 24 + t.hour) * 60 + t.minute

/-- Boolean comparison used to model the SQL comparison of ISO-formatted
datetime strings. -/
def DateTime.leb (a b : DateTime) : Bool :=
  decide (a.absMinutes ≤ b.absMinutes)

/-- Universe of native Python values that may appear in task arguments:
`None`, booleans, integers, strings, tuples and dicts.  Dict keys are
arbitrary values, so non-string keys are representable. -/
inductive PyValue where
  | pyNone : PyValue
  | pyBool : Bool → PyValue
  | pyInt : Int → PyValue
  | pyStr : String → PyValue
  | pyTuple : List PyValue → PyValue
  | pyDict : List (PyValue × PyValue) → PyValue

/-- Tokens of the serialized argument blob, modelling the opaque pickle
byte stream at the granularity the claims need. -/
inductive PTok where
  | tNone : PTok
  | tBool : Bool → PTok
  | tInt : Int → PTok
  | tStr : String → PTok
  | tTuple : Nat → PTok
  | tDict : Nat → PTok
deriving DecidableEq, Repr

mutual

/-- Serialize one value into a token stream (the model of `pickle.dumps`
applied to a single object). -/
def dumpV : PyValue → List PTok
  | .pyNone => [.tNone]
  | .pyBool b => [.tBool b]
  | .pyInt i => [.tInt i]
  | .pyStr s => [.tStr s]
  | .pyTuple xs => .tTuple xs.length :: dumpL xs
  | .pyDict ps => .tDict ps.length :: dumpP ps

/-- Serialize a list of values, concatenating the element streams. -/
def dumpL : List PyValue → List PTok
  | [] => []
  | x :: xs => dumpV x ++ dumpL xs

/-- Serialize a list of key-value pairs. -/
def dumpP : List (PyValue × PyValue) → List PTok
  | [] => []
  | (k, v) :: ps => dumpV k ++ dumpV v ++ dumpP ps

end

mutual

/-- Token-length measure of a value; equals the length of its dump. -/
def sizeV : PyValue → Nat
  | .pyNone => 1
  | .pyBool _ => 1
  | .pyInt _ => 1
  | .pyStr _ => 1
  | .pyTuple xs => 1 + sizeL xs
  | .pyDict ps => 1 + sizeP ps

/-- Token-length measure of a value list. -/
def sizeL : List PyValue → Nat
  | [] => 0
  | x :: xs => sizeV x + sizeL xs

/-- Token-length measure of a pair list. -/
def sizeP : List (PyValue × PyValue) → Nat
  | [] => 0
  | (k, v) :: ps => sizeV k + sizeV v + sizeP ps

end

mutual

/-- Fuel-indexed deserializer for one value; returns the value and the
unconsumed suffix (the model of `pickle.loads`, which raises on a
malformed stream, hence `Option`). -/
def parseV : Nat → List PTok → Option (PyValue × List PTok)
  | 0, _ => none
  | _ + 1, [] => none
  | f + 1, t :: rest =>
    match t with
    | .tNone => some (.pyNone, rest)
    | .tBool b => some (.pyBool b, rest)
    | .tInt i => some (.pyInt i, rest)
    | .tStr s => some (.pyStr s, rest)
    | .tTuple n => (parseL f n rest).map fun p => (.pyTuple p.1, p.2)
    | .tDict n => (parseP f n rest).map fun p => (.pyDict p.1, p.2)
termination_by f _ => (f, 0)

/-- Deserialize exactly `n` values. -/
def parseL : Nat → Nat → List PTok → Option (List PyValue × List PTok)
  | _, 0, rest => some ([], rest)
  | 0, _ + 1, _ => none
  | f + 1, n + 1, rest =>
    match parseV (f + 1) rest with
    | none => none
    | some (x, r1) =>
      match parseL f n r1 with
      | none => none
      | some (xs, r2) => some (x :: xs, r2)
termination_by f _ _ => (f, 1)

/-- Deserialize exactly `n` key-value pairs. -/
def parseP : Nat → Nat → List PTok → Option (List (PyValue × PyValue) × List PTok)
  | _, 0, rest => some ([], rest)
  | 0, _ + 1, _ => none
  | f + 1, n + 1, rest =>
    match parseV (f + 1) rest with
    | none => none
    | some (k, r1) =>
      match parseV (f + 1) r1 with
      | none => none
      | some (v, r2) =>
        match parseP f n r2 with
        | none => none
        | some (ps, r3) => some ((k, v) :: ps, r3)
termination_by f _ _ => (f, 1)

end

/-- Model of `pickle.dumps` on the `(args, kwargs)` pair stored by
`register_callable` and `register_result`. -/
def pickleDumpsArgs (args : List PyValue) (kwargs : List (PyValue × PyValue)) :
    List PTok :=
  dumpV (.pyTuple [.pyTuple args, .pyDict kwargs])

/-- Model of `pickle.loads` on a blob holding a single object. -/
def pickleLoads (blob : List PTok) : Option PyValue :=
  match parseV (blob.length + 1) blob with
  | some (v, _) => some v
  | none => none

/-- Row of the `task` table as created by `CMD_CREATE_TASK_TABLE`:
`uuid TEXT, schedule datetime PRIMARY KEY, crontab TEXT, function_module
TEXT, function_name TEXT, function_arguments BLOB`, plus the implicit
SQLite `rowid`. -/
structure TaskRow where
  rowid : Nat
  uuid : String
  schedule : DateTime
  crontab : String
  function_module : String
  function_name : String
  function_arguments : List PTok
deriving DecidableEq, Repr

/-- The `task` table together with the rowid counter SQLite maintains. -/
structure TaskStore where
  rows : List TaskRow
  nextRowid : Nat
deriving DecidableEq, Repr

/-- Empty task table. -/
def TaskStore.empty : TaskStore := ⟨[], 1⟩

/-- Model of `SQLiteInterface.register_callable`: defaults `schedule` to
`now` when omitted, pickles `(args, kwargs)` and executes
`CMD_STORE_CALLABLE`.  The `schedule` column is the table's PRIMARY KEY,
so inserting a row whose schedule equals a stored one raises an
integrity error, modelled by `Except.error`. -/
def register_callable (st : TaskStore) (function_module function_name : String)
    (now : DateTime) (uuid : String) (schedule : Option DateTime)
    (crontab : String) (args : List PyValue)
    (kwargs : List (PyValue × PyValue)) : Except String TaskStore :=
  let sched := schedule.getD now
  if st.rows.any fun r => r.schedule == sched then
    Except.error "UNIQUE constraint failed: task.schedule"
  else
    Except.ok
      { rows := st.rows ++
          [⟨st.nextRowid, uuid, sched, crontab, function_module, function_name,
            pickleDumpsArgs args kwargs⟩],
        nextRowid := st.nextRowid + 1 }

/-- Row selection of `CMD_GET_CALLABLES_ON_DUE` (`WHERE schedule <= ?`) with
the default-to-now behavior of `get_tasks_on_due`. -/
def get_tasks_on_due_rows (st : TaskStore) (schedule : Option DateTime)
    (now : DateTime) : List TaskRow :=
  let sched := schedule.getD now
  st.rows.filter fun r => r.schedule.leb sched

/-- Row selection of `CMD_GET_CALLABLES_BY_NAME`
(`WHERE function_module == ? AND function_name == ?`), the query behind
`get_tasks_by_signature`. -/
def get_tasks_by_signature_rows (st : TaskStore)
    (function_module function_name : String) : List TaskRow :=
  st.rows.filter fun r =>
    r.function_module == function_module && r.function_name == function_name

/-- Task entry as unpacked by `_fetch_all_callable_entries`: the column
values plus the unpickled `args` and `kwargs`. -/
structure TaskEntry where
  rowid : Nat
  uuid : String
  schedule : DateTime
  crontab : String
  function_module : String
  function_name : String
  args : List PyValue
  kwargs : List (PyValue × PyValue)

/-- Unpacking of a single selected row performed inside
`_fetch_all_callable_entries`: `args, kwargs = pickle.loads(row[-1])`.
A blob that does not decode to an `(args, kwargs)` pair makes
`pickle.loads` (or the unpacking) raise, modelled by `none`. -/
def process_row (r : TaskRow) : Option TaskEntry :=
  match pickleLoads r.function_arguments with
  | some (.pyTuple [.pyTuple args, .pyDict kwargs]) =>
      some ⟨r.rowid, r.uuid, r.schedule, r.crontab, r.function_module,
        r.function_name, args, kwargs⟩
  | _ => none

/-- Model of `_fetch_all_callable_entries` applied to a row selection. -/
def fetch_all_callable_entries (rows : List TaskRow) : Option (List TaskEntry) :=
  rows.mapM process_row

/-- Model of `delete_callable` (`DELETE FROM task WHERE rowid == ?`). -/
def delete_callable (st : TaskStore) (entry : TaskRow) : TaskStore :=
  { st with rows := st.rows.filter fun r => r.rowid != entry.rowid }

/-- Model of `delete_cronjobs` (`DELETE FROM task WHERE crontab <> ''`). -/
def delete_cronjobs (st : TaskStore) : TaskStore :=
  { st with rows := st.rows.filter fun r => r.crontab == "" }

/-- Model of `update_schedule` (`UPDATE task SET schedule = ? WHERE rowid
== ?`); the PRIMARY KEY on `schedule` makes an update onto an already
stored schedule of another row fail with an integrity error. -/
def update_schedule (st : TaskStore) (rowid : Nat) (schedule : DateTime) :
    Except String TaskStore :=
  if st.rows.any fun r => r.rowid != rowid && r.schedule == schedule then
    Except.error "UNIQUE constraint failed: task.schedule"
  else
    Except.ok
      { st with rows := st.rows.map fun r =>
          if r.rowid == rowid then { r with schedule := schedule } else r }

/-- Status codes of the result table. -/
def TASK_STATUS_WAITING : Nat := 0

/-- Status code for a processed result. -/
def TASK_STATUS_READY : Nat := 1

/-- Status code for a failed result. -/
def TASK_STATUS_ERROR : Nat := 3

/-- Row of the `result` table (`CMD_CREATE_RESULT_TABLE`). -/
structure ResultRow where
  uuid : String
  status : Nat
  function_module : String
  function_name : String
  function_arguments : List PTok
  function_result : List PTok
  error_message : String
  ttl : DateTime
deriving DecidableEq, Repr

/-- Model of `delete_outdated_results`, executing
`CMD_DELETE_OUTDATED_RESULTS`:
`DELETE FROM result WHERE status == 1 AND ttl <= ?` with `?` bound to the
current time. -/
def delete_outdated_results (rows : List ResultRow) (now : DateTime) :
    List ResultRow :=
  rows.filter fun r => !(r.status == TASK_STATUS_READY && r.ttl.leb now)

/-- The settings singleton row: `max_workers INTEGER, running_workers
INTEGER` (SQLite integers are modelled by `Int`). -/
structure Settings where
  max_workers : Int
  running_workers : Int
deriving DecidableEq, Repr

/-- Model of `increment_running_workers`: reads the settings, adds one to
`running_workers` and writes the row back, with no comparison against
`max_workers`. -/
def increment_running_workers (s : Settings) : Settings :=
  { s with running_workers := s.running_workers + 1 }

/-- Model of `decrement_running_workers`: subtracts one only when
`running_workers > 0`, otherwise leaves the row untouched. -/
def decrement_running_workers (s : Settings) : Settings :=
  if s.running_workers > 0 then
    { s with running_workers := s.running_workers - 1 }
  else s

/-- Model of `try_increment_running_workers`: compares `running_workers`
with `max_workers`, increments on success and reports the outcome. -/
def try_increment_running_workers (s : Settings) : Settings × Bool :=
  if s.running_workers < s.max_workers then
    (increment_running_workers s, true)
  else (s, false)

/-- In-memory state of a `Worker` instance: the cooperative `active`
flag and the `result` / `error_message` scratch fields. -/
structure WorkerState where
  active : Bool
  result : Option PyValue
  error_message : Option String

/-- Model of `Worker.postprocess_task` as written in `worker.py`: the
body is `pass` followed by resetting `self.error_message` and
`self.result`; no store operation is performed, so the store is returned
unchanged. -/
def postprocess_task (w : WorkerState) (st : TaskStore) (_task : TaskRow) :
    WorkerState × TaskStore :=
  ({ w with result := none, error_message := none }, st)

/-- State visible to `Engine.start` / `Engine.start_allowed`: whether the
semaphore marker file exists, whether the configuration is active, the
cached `_start_allowed` value and whether the monitor thread has been
started. -/
structure EngineState where
  semaphoreExists : Bool
  isActive : Bool
  startAllowedCache : Option Bool
  monitorStarted : Bool
deriving DecidableEq, Repr

/-- Model of the `Engine.start_allowed` property: on first evaluation it
attempts `semaphore_file.touch(exist_ok=False)`; `FileExistsError` is
caught and yields `False`, a successful creation yields `True`; the
result is cached in `_start_allowed`. -/
def engine_start_allowed (s : EngineState) : EngineState × Bool :=
  match s.startAllowedCache with
  | some b => (s, b)
  | none =>
    if s.isActive then
      if s.semaphoreExists then
        ({ s with startAllowedCache := some false }, false)
      else
        ({ s with semaphoreExists := true, startAllowedCache := some true },
          true)
    else ({ s with startAllowedCache := some false }, false)

/-- Model of `Engine.start`: starts the monitor thread when
`start_allowed` holds.  The Python method body contains no `return`
statement, so the call evaluates to `None` on every path; the returned
`Option Bool` models that value (`none` standing for Python `None`). -/
def engine_start (s : EngineState) : EngineState × Option Bool :=
  let p := engine_start_allowed s
  if p.2 then ({ p.1 with monitorStarted := true }, none)
  else (p.1, none)

namespace Schedule

/-- Gregorian leap-year test. -/
def isLeap (y : Nat) : Bool :=
  y % 4 == 0 && (y % 100 != 0 || y % 400 == 0)

/-- Number of days of a month. -/
def daysInMonth (y m : Nat) : Nat :=
  if m == 2 then (if isLeap y then 29 else 28)
  else if m == 4 || m == 6 || m == 9 || m == 11 then 30
  else 31

/-- The calendar-valid datetimes (the only ones `datetime.datetime` can
represent). -/
def Valid (t : DateTime) : Prop :=
  1 ≤ t.month ∧ t.month ≤ 12 ∧ 1 ≤ t.day ∧
    t.day ≤ daysInMonth t.year t.month ∧ t.hour ≤ 23 ∧ t.minute ≤ 59

instance (t : DateTime) : Decidable (Valid t) := by
  unfold Valid; infer_instance

/-- Advance a datetime by one minute, rolling over hour, day, month and
year. -/
def succMinute (t : DateTime) : DateTime :=
  if t.minute < 59 then { t with minute := t.minute + 1 }
  else if t.hour < 23 then { t with minute := 0, hour := t.hour + 1 }
  else if t.day < daysInMonth t.year t.month then
    { t with minute := 0, hour := 0, day := t.day + 1 }
  else if t.month < 12 then
    { t with minute := 0, hour := 0, day := 1, month := t.month + 1 }
  else
    { year := t.year + 1, month := 1, day := 1, hour := 0, minute := 0 }

/-- Day of the week of a date via Zeller's congruence, with cron's
numbering `0 = Sunday .. 6 = Saturday`. -/
def dayOfWeek (y m d : Nat) : Nat :=
  let yy := if m ≤ 2 then y - 1 else y
  let mm := if m ≤ 2 then m + 12 else m
  let K := yy % 100
  let J := yy / 100
  let h := (d + (13 * (mm + 1)) / 5 + K + K / 4 + J / 4 + 5 * J) % 7
  (h + 6) % 7

/-- Split a character list on a separator character. -/
def splitSep (sep : Char) (cs : List Char) : List (List Char) :=
  cs.foldr
    (fun c acc =>
      if c == sep then [] :: acc
      else
        match acc with
        | g :: gs => (c :: g) :: gs
        | [] => [[c]])
    [[]]

/-- Parse a nonempty digit sequence as a natural number. -/
def parseNatChars (cs : List Char) : Option Nat :=
  match cs with
  | [] => none
  | _ =>
    cs.foldl
      (fun acc c =>
        match acc with
        | none => none
        | some n => if c.isDigit then some (n * 10 + (c.toNat - 48)) else none)
      (some 0)

/-- One comma-separated item of a crontab field. -/
inductive CronItem where
  | star : Nat → CronItem
  | lit : Nat → CronItem
  | span : Nat → Nat → Nat → CronItem
deriving DecidableEq, Repr

/-- Modelled from the spec: parse the base of a field item (`*`, a
literal, or a range `a-b`) with an already parsed step value, validating
the field bounds `lo`/`hi` of the five-field grammar of section 4.2. -/
def parseBase (lo hi : Nat) (base : List Char) (s : Nat) : Option CronItem :=
  if base == ['*'] then some (.star s)
  else
    match splitSep '-' base with
    | [a] =>
      match parseNatChars a with
      | some n => if lo ≤ n && n ≤ hi then some (.lit n) else none
      | none => none
    | [a, b] =>
      match parseNatChars a, parseNatChars b with
      | some x, some y =>
        if lo ≤ x && x ≤ y && y ≤ hi then some (.span x y s) else none
      | _, _ => none
    | _ => none

/-- Modelled from the spec: parse one item, splitting off an optional
`/step` suffix (step values are rejected when zero). -/
def parseItem (lo hi : Nat) (cs : List Char) : Option CronItem :=
  match splitSep '/' cs with
  | [base] => parseBase lo hi base 1
  | [base, stepCs] =>
    match parseNatChars stepCs with
    | some s => if s == 0 then none else parseBase lo hi base s
    | none => none
  | _ => none

/-- Modelled from the spec: parse a whole field as a comma-list of
items. -/
def parseField (lo hi : Nat) (cs : List Char) : Option (List CronItem) :=
  (splitSep ',' cs).mapM (parseItem lo hi)

/-- A parsed five-field crontab expression. -/
structure CronSpec where
  minute : List CronItem
  hour : List CronItem
  dom : List CronItem
  month : List CronItem
  dow : List CronItem
deriving DecidableEq, Repr

/-- Modelled from the spec: the `schedule` module is absent from the
source tree; section 4.2 specifies the five-field grammar
minute, hour, day-of-month, month, day-of-week with `*`, literals,
comma-lists, ranges and step values.  A malformed expression yields
`none` (the `ScheduleError` of the spec). -/
def parse_crontab (s : String) : Option CronSpec :=
  match (splitSep ' ' s.data).filter (fun g => !g.isEmpty) with
  | [mi, h, dm, mo, dw] =>
    match parseField 0 59 mi, parseField 0 23 h, parseField 1 31 dm,
        parseField 1 12 mo, parseField 0 7 dw with
    | some fmi, some fh, some fdm, some fmo, some fdw =>
      some ⟨fmi, fh, fdm, fmo, fdw⟩
    | _, _, _, _, _ => none
  | _ => none

/-- Does one item match a value, relative to the field minimum `lo`? -/
def matchItem (lo : Nat) (it : CronItem) (v : Nat) : Bool :=
  match it with
  | .star s => (v - lo) % s == 0
  | .lit n => v == n || (n == 7 && v == 0)
  | .span a b s => a ≤ v && v ≤ b && (v - a) % s == 0

/-- Does a field (list of items) match a value? -/
def matchField (lo : Nat) (items : List CronItem) (v : Nat) : Bool :=
  items.any fun it => matchItem lo it v

/-- Does a datetime match all five fields of a parsed expression? -/
def matchesSpec (spec : CronSpec) (t : DateTime) : Bool :=
  matchField 0 spec.minute t.minute &&
  matchField 0 spec.hour t.hour &&
  matchField 1 spec.dom t.day &&
  matchField 1 spec.month t.month &&
  matchField 0 spec.dow (dayOfWeek t.year t.month t.day)

/-- Scan forward minute by minute for the first matching datetime, with
bounded fuel. -/
def scan_next (spec : CronSpec) : Nat → DateTime → Option DateTime
  | 0, _ => none
  | f + 1, t => if matchesSpec spec t then some t else scan_next spec f (succMinute t)

/-- Scan bound: about four years of minutes. -/
def CRON_SCAN_FUEL : Nat := 2103840

/-- Modelled from the spec: `CronScheduler.get_next_schedule`
(`compute_next_schedule(expression, from_time)` of section 4.2), the
next occurrence of the expression strictly after `now`, computed by a
minute scan starting one minute past `now`. -/
def get_next_schedule (crontab : String) (now : DateTime) : Option DateTime :=
  match parse_crontab crontab with
  | none => none
  | some spec => scan_next spec CRON_SCAN_FUEL (succMinute now)

end Schedule

/-- Modelled from the spec: `decorators.py` calls
`interface.find_callables`, a method absent from `sql_interface.py`;
section 4.1 specifies it as returning all rows matching a function
identifier regardless of schedule, which is exactly the selection behind
`get_tasks_by_signature`. -/
def find_callables (st : TaskStore) (function_module function_name : String) :
    List TaskRow :=
  get_tasks_by_signature_rows st function_module function_name

/-- Model of the `cron` decorator's registration logic (`decorators.py`):
when the configuration is active, compute the next schedule for the
crontab, iterate over the rows found for the decorated function deleting
every row carrying a non-empty crontab, then register the callable with
the given crontab and the computed schedule. -/
def cron_decorator_register (isActive : Bool) (st : TaskStore)
    (function_module function_name crontab : String) (now : DateTime) :
    Except String TaskStore :=
  if isActive then
    match Schedule.get_next_schedule crontab now with
    | none => Except.error "ScheduleError"
    | some sched =>
      let entries := find_callables st function_module function_name
      let st1 := entries.foldl
        (fun acc e => if e.crontab != "" then delete_callable acc e else acc) st
      register_callable st1 function_module function_name now "" (some sched)
        crontab [] []
  else Except.ok st

/-- C2: for every stored set of task rows and every timestamp `t`,
`get_tasks_on_due(t)` returns exactly the rows with `schedule <= t`
(membership both ways), and when no timestamp is passed the current time
is used. -/
theorem get_tasks_on_due_exact (st : TaskStore) (t now : DateTime) (r : TaskRow) :
    (r ∈ get_tasks_on_due_rows st (some t) now ↔
      r ∈ st.rows ∧ r.schedule.absMinutes ≤ t.absMinutes) ∧
    get_tasks_on_due_rows st none now = get_tasks_on_due_rows st (some now) now := by
  constructor
  · simp [get_tasks_on_due_rows, List.mem_filter, DateTime.leb]
  · rfl

/-- C4 counterexample: the settings state with `max_workers = 1` and
`running_workers = 1` satisfies the invariant, but the store operation
`increment_running_workers` takes it to `running_workers = 2 >
max_workers`, so not every one of the listed operations preserves the
invariant. -/
theorem increment_running_workers_violates_invariant :
    (0 ≤ (Settings.mk 1 1).running_workers ∧
      (Settings.mk 1 1).running_workers ≤ (Settings.mk 1 1).max_workers) ∧
    ¬ (increment_running_workers (Settings.mk 1 1)).running_workers ≤
        (increment_running_workers (Settings.mk 1 1)).max_workers := by
  decide

/-- C4 (amended): starting from `0 <= running_workers <= max_workers`,
`decrement_running_workers` and `try_increment_running_workers` preserve
the invariant unconditionally, and `increment_running_workers` preserves
it when `running_workers < max_workers` (the only situation in which the
worker code invokes it, guarded by the try-increment comparison). -/
theorem settings_ops_preserve_worker_bounds (s : Settings)
    (h0 : 0 ≤ s.running_workers) (h1 : s.running_workers ≤ s.max_workers) :
    (0 ≤ (decrement_running_workers s).running_workers ∧
      (decrement_running_workers s).running_workers ≤
        (decrement_running_workers s).max_workers) ∧
    (0 ≤ (try_increment_running_workers s).1.running_workers ∧
      (try_increment_running_workers s).1.running_workers ≤
        (try_increment_running_workers s).1.max_workers) ∧
    (s.running_workers < s.max_workers →
      0 ≤ (increment_running_workers s).running_workers ∧
        (increment_running_workers s).running_workers ≤
          (increment_running_workers s).max_workers) := by
  unfold decrement_running_workers try_increment_running_workers
    increment_running_workers
  refine ⟨?_, ?_, fun h2 => ?_⟩ <;> (try split) <;>
    constructor <;> (try simp) <;> omega

/-- C4 witness: the amended preservation statement evaluated at the
concrete settings state `max_workers = 2`, `running_workers = 1`. -/
theorem settings_ops_preserve_worker_bounds_witness :
    (0 ≤ (decrement_running_workers (Settings.mk 2 1)).running_workers ∧
      (decrement_running_workers (Settings.mk 2 1)).running_workers ≤
        (decrement_running_workers (Settings.mk 2 1)).max_workers) ∧
    (0 ≤ (try_increment_running_workers (Settings.mk 2 1)).1.running_workers ∧
      (try_increment_running_workers (Settings.mk 2 1)).1.running_workers ≤
        (try_increment_running_workers (Settings.mk 2 1)).1.max_workers) ∧
    ((Settings.mk 2 1).running_workers < (Settings.mk 2 1).max_workers →
      0 ≤ (increment_running_workers (Settings.mk 2 1)).running_workers ∧
        (increment_running_workers (Settings.mk 2 1)).running_workers ≤
          (increment_running_workers (Settings.mk 2 1)).max_workers) :=
  settings_ops_preserve_worker_bounds (Settings.mk 2 1) (by decide) (by decide)

/-- C5: `try_increment_running_workers` returns `True` and increments by
exactly one when `running_workers < max_workers`, otherwise returns
`False` leaving the settings unchanged; `decrement_running_workers`
decrements only a positive counter, is the identity at zero and never
produces a negative value. -/
theorem try_increment_decrement_spec (s : Settings) :
    (s.running_workers < s.max_workers →
      (try_increment_running_workers s).2 = true ∧
      (try_increment_running_workers s).1 =
        { s with running_workers := s.running_workers + 1 }) ∧
    (¬ s.running_workers < s.max_workers →
      try_increment_running_workers s = (s, false)) ∧
    (0 < s.running_workers →
      decrement_running_workers s =
        { s with running_workers := s.running_workers - 1 }) ∧
    (s.running_workers = 0 → decrement_running_workers s = s) ∧
    (0 ≤ s.running_workers →
      0 ≤ (decrement_running_workers s).running_workers) := by
  unfold try_increment_running_workers increment_running_workers
    decrement_running_workers
  refine ⟨fun h => ?_, fun h => ?_, fun h => ?_, fun h => ?_, fun h => ?_⟩
  all_goals try split
  all_goals simp_all
  all_goals omega

/-- C5 witness: the specification evaluated at the concrete settings
state `max_workers = 1`, `running_workers = 0`. -/
theorem try_increment_decrement_spec_witness :
    (try_increment_running_workers (Settings.mk 1 0)).2 = true ∧
    decrement_running_workers (Settings.mk 1 0) = Settings.mk 1 0 ∧
    0 ≤ (decrement_running_workers (Settings.mk 1 0)).running_workers := by
  have h := try_increment_decrement_spec (Settings.mk 1 0)
  exact ⟨(h.1 (by decide)).1, h.2.2.2.1 (by decide), h.2.2.2.2 (by decide)⟩

/-- C6 counterexample: with now = 2024-01-01 12:00, the sweep deletes a
READY entry whose ttl equals now (so `now > ttl` does not hold), and it
keeps an entry with status ERROR whose ttl passed twelve hours earlier;
both halves of the claim fail on the code's
`DELETE ... WHERE status == 1 AND ttl <= ?`. -/
theorem delete_outdated_results_claim_counterexample :
    delete_outdated_results
        [ResultRow.mk "u1" 3 "m" "f" [] [] "boom" (DateTime.mk 2024 1 1 0 0),
         ResultRow.mk "u2" 1 "m" "f" [] [] "" (DateTime.mk 2024 1 1 12 0)]
        (DateTime.mk 2024 1 1 12 0) =
      [ResultRow.mk "u1" 3 "m" "f" [] [] "boom" (DateTime.mk 2024 1 1 0 0)] ∧
    (DateTime.mk 2024 1 1 0 0).absMinutes <
      (DateTime.mk 2024 1 1 12 0).absMinutes ∧
    ¬ (DateTime.mk 2024 1 1 12 0).absMinutes <
        (DateTime.mk 2024 1 1 12 0).absMinutes := by
  decide

/-- C6 (amended): the TTL sweep deletes exactly the result entries whose
status is READY and whose ttl is less than or equal to now; entries with
any other status are never deleted, and a READY entry is already deleted
when its ttl equals now. -/
theorem delete_outdated_results_exact (rows : List ResultRow) (now : DateTime)
    (r : ResultRow) :
    r ∈ delete_outdated_results rows now ↔
      r ∈ rows ∧
        ¬ (r.status = TASK_STATUS_READY ∧ r.ttl.absMinutes ≤ now.absMinutes) := by
  simp only [delete_outdated_results, List.mem_filter, DateTime.leb,
    TASK_STATUS_READY, Bool.not_eq_true', Bool.and_eq_false_iff,
    beq_eq_false_iff_ne, ne_eq, decide_eq_false_iff_not, not_le,
    and_congr_right_iff]
  intro _
  omega

/-- C9 counterexample: `Engine.start` has no `return` statement, so it
evaluates to `None` both when the monitor thread is spawned and when the
semaphore file blocks the start; the returned value therefore gives no
indication of whether the monitor was started. -/
theorem engine_start_claim_counterexample :
    (engine_start (EngineState.mk false true none false)).1.monitorStarted = true ∧
    (engine_start (EngineState.mk true true none false)).1.monitorStarted = false ∧
    (engine_start (EngineState.mk false true none false)).2 =
      (engine_start (EngineState.mk true true none false)).2 := by
  decide

/-- C9 (amended): `Engine.start` always returns `None`; when the
semaphore marker file already exists (and `_start_allowed` is not yet
cached), `start_allowed` evaluates to `False`, the monitor is not
started, and the call returns normally instead of raising (the
`FileExistsError` of the `touch` is caught inside `start_allowed`). -/
theorem engine_start_semaphore_blocked (s : EngineState)
    (hsem : s.semaphoreExists = true) (hcache : s.startAllowedCache = none) :
    (engine_start s).2 = none ∧
    (engine_start s).1.monitorStarted = s.monitorStarted := by
  cases s
  simp_all [engine_start, engine_start_allowed]
  split <;> simp

/-- C9 witness: the blocked-start behavior at the concrete engine state
with an existing semaphore file, active configuration, empty cache and no
monitor running. -/
theorem engine_start_semaphore_blocked_witness :
    (engine_start (EngineState.mk true true none false)).2 = none ∧
    (engine_start (EngineState.mk true true none false)).1.monitorStarted =
      (EngineState.mk true true none false).monitorStarted :=
  engine_start_semaphore_blocked (EngineState.mk true true none false) rfl rfl

/-- C1 (code evaluated at the failing input): `Worker.postprocess_task`
as written only resets the in-memory `result` and `error_message` fields
and performs no store operation, so a due one-shot task row (empty
crontab) is still present in the store after post-processing, where the
claim requires it to be deleted. -/
theorem postprocess_task_keeps_oneshot_row :
    (postprocess_task (WorkerState.mk true (some (.pyInt 1)) none)
        (TaskStore.mk
          [TaskRow.mk 1 "" (DateTime.mk 2024 1 1 0 0) "" "m" "f"
            (pickleDumpsArgs [] [])] 2)
        (TaskRow.mk 1 "" (DateTime.mk 2024 1 1 0 0) "" "m" "f"
          (pickleDumpsArgs [] []))).2 =
      TaskStore.mk
        [TaskRow.mk 1 "" (DateTime.mk 2024 1 1 0 0) "" "m" "f"
          (pickleDumpsArgs [] [])] 2 ∧
    TaskRow.mk 1 "" (DateTime.mk 2024 1 1 0 0) "" "m" "f"
        (pickleDumpsArgs [] []) ∈
      (postprocess_task (WorkerState.mk true (some (.pyInt 1)) none)
        (TaskStore.mk
          [TaskRow.mk 1 "" (DateTime.mk 2024 1 1 0 0) "" "m" "f"
            (pickleDumpsArgs [] [])] 2)
        (TaskRow.mk 1 "" (DateTime.mk 2024 1 1 0 0) "" "m" "f"
          (pickleDumpsArgs [] []))).2.rows := by
  constructor
  · rfl
  · simp [postprocess_task]

/-- C10: the `schedule` column is the task table's PRIMARY KEY, so a
`register_callable` call whose schedule equals that of a stored row fails
with a constraint error, and a successful insert preserves pairwise
distinctness of the stored schedules. -/
theorem schedule_primary_key_constraint (st : TaskStore)
    (tmod tname : String) (now : DateTime) (uuid : String) (sched : DateTime)
    (crontab : String) (args : List PyValue)
    (kwargs : List (PyValue × PyValue)) :
    ((∃ r ∈ st.rows, r.schedule = sched) →
      ∃ msg, register_callable st tmod tname now uuid (some sched) crontab
          args kwargs = Except.error msg) ∧
    (st.rows.Pairwise (fun a b => a.schedule ≠ b.schedule) →
      ∀ st', register_callable st tmod tname now uuid (some sched) crontab
          args kwargs = Except.ok st' →
        st'.rows.Pairwise (fun a b => a.schedule ≠ b.schedule)) := by
  constructor
  · rintro ⟨r, hr, hsched⟩
    refine ⟨"UNIQUE constraint failed: task.schedule", ?_⟩
    unfold register_callable
    have hany : st.rows.any (fun q => q.schedule == sched) = true :=
      List.any_eq_true.mpr ⟨r, hr, by simp [hsched]⟩
    simp [hany]
  · intro hpw st' hok
    unfold register_callable at hok
    by_cases hany : st.rows.any (fun q => q.schedule == sched) = true
    · simp [hany] at hok
    · simp only [Bool.not_eq_true] at hany
      simp only [hany, Option.getD_some, Bool.false_eq_true, if_false,
        Except.ok.injEq] at hok
      subst hok
      rw [List.pairwise_append]
      refine ⟨hpw, by simp, ?_⟩
      intro a ha b hb
      simp only [List.mem_singleton] at hb
      subst hb
      have := List.any_eq_false.mp hany a ha
      simpa using this

/-- Deleting, while iterating over a snapshot list `es`, every listed
entry carrying a non-empty crontab amounts to a single filter over the
stored rows. -/
theorem foldl_delete_cron_rows (es : List TaskRow) (st : TaskStore) :
    (es.foldl
        (fun acc e => if e.crontab != "" then delete_callable acc e else acc)
        st).rows =
      st.rows.filter
        (fun r => es.all fun e => !(e.crontab != "" && r.rowid == e.rowid)) := by
  induction es generalizing st with
  | nil => simp
  | cons e es ih =>
    rcases he : (e.crontab != "") with _ | _
    · simp only [List.foldl_cons, he, Bool.false_eq_true, if_false]
      rw [ih]
      apply List.filter_congr
      intro r _
      simp [he]
    · simp only [List.foldl_cons, he, if_true]
      rw [ih]
      simp only [delete_callable]
      rw [List.filter_filter]
      apply List.filter_congr
      intro r _
      simp only [List.all_cons, he, Bool.true_and]
      rw [Bool.and_comm]
      rfl

/-- C3: registering a function again through the cron decorator first
deletes every stored row of that function with a non-empty crontab and
then inserts one new row, so a successful re-registration leaves exactly
one live cron row for the function, carrying the most recently given
crontab. -/
theorem cron_decorator_singleton (st : TaskStore) (tmod tname ct : String)
    (now : DateTime) (st' : TaskStore) (hct : ct ≠ "")
    (hok : cron_decorator_register true st tmod tname ct now = Except.ok st') :
    ∃ nr,
      st'.rows.filter
          (fun r => r.function_module == tmod && r.function_name == tname &&
            r.crontab != "") = [nr] ∧
      nr.crontab = ct := by
  unfold cron_decorator_register at hok
  rcases hsched : Schedule.get_next_schedule ct now with _ | sched <;>
    rw [hsched] at hok
  · simp at hok
  · simp only [if_true, register_callable] at hok
    set st1 := (find_callables st tmod tname).foldl
      (fun acc e => if e.crontab != "" then delete_callable acc e else acc) st
      with hst1
    by_cases hany : (st1.rows.any fun r => r.schedule == (some sched).getD now) = true
    · rw [if_pos hany] at hok
      simp at hok
    · rw [if_neg (by simp_all)] at hok
      injection hok with hok
      subst hok
      refine ⟨TaskRow.mk st1.nextRowid "" ((some sched).getD now) ct tmod tname
        (pickleDumpsArgs [] []), ?_, rfl⟩
      rw [List.filter_append]
      have hnil : st1.rows.filter
          (fun r => r.function_module == tmod && r.function_name == tname &&
            r.crontab != "") = [] := by
        rw [List.filter_eq_nil_iff]
        intro r hr hlive
        rw [hst1, foldl_delete_cron_rows] at hr
        rcases List.mem_filter.mp hr with ⟨hmem, hall⟩
        simp only [Bool.and_eq_true, beq_iff_eq] at hlive
        have hres : r ∈ find_callables st tmod tname := by
          simp only [find_callables, get_tasks_by_signature_rows,
            List.mem_filter]
          exact ⟨hmem, by simp [hlive.1.1, hlive.1.2]⟩
        have := List.all_eq_true.mp hall r hres
        simp [hlive.2] at this
      rw [hnil]
      simp [hct]

/-- C3 witness: a concrete store holding two stale cron rows of the same
function converges to a single live cron row carrying the newly given
crontab. -/
theorem cron_decorator_singleton_witness :
    ∃ nr,
      (TaskStore.mk
          [TaskRow.mk 3 "" (DateTime.mk 2024 1 1 0 1) "* * * * *" "m" "f"
            [PTok.tTuple 2, PTok.tTuple 0, PTok.tDict 0]] 4).rows.filter
          (fun r => r.function_module == "m" && r.function_name == "f" &&
            r.crontab != "") = [nr] ∧
      nr.crontab = "* * * * *" :=
  cron_decorator_singleton
    (TaskStore.mk
      [TaskRow.mk 1 "" (DateTime.mk 2023 1 1 0 0) "* * * * *" "m" "f" [],
       TaskRow.mk 2 "" (DateTime.mk 2023 1 2 0 0) "* * * * *" "m" "f" []] 3)
    "m" "f" "* * * * *" (DateTime.mk 2024 1 1 0 0)
    (TaskStore.mk
      [TaskRow.mk 3 "" (DateTime.mk 2024 1 1 0 1) "* * * * *" "m" "f"
        [PTok.tTuple 2, PTok.tTuple 0, PTok.tDict 0]] 4)
    (by decide) (by rfl)

/-- C10 witness: a concrete store holding one row scheduled at
2024-01-01 00:00 rejects a second registration with the same schedule,
and schedule distinctness is preserved by a successful insert at a fresh
schedule. -/
theorem schedule_primary_key_constraint_witness :
    ∃ msg, register_callable
        (TaskStore.mk
          [TaskRow.mk 1 "" (DateTime.mk 2024 1 1 0 0) "" "m" "f" []] 2)
        "m" "f" (DateTime.mk 2024 1 2 0 0) "" (some (DateTime.mk 2024 1 1 0 0))
        "" [] [] = Except.error msg :=
  (schedule_primary_key_constraint
      (TaskStore.mk [TaskRow.mk 1 "" (DateTime.mk 2024 1 1 0 0) "" "m" "f" []] 2)
      "m" "f" (DateTime.mk 2024 1 2 0 0) "" (DateTime.mk 2024 1 1 0 0) "" []
      []).1
    ⟨TaskRow.mk 1 "" (DateTime.mk 2024 1 1 0 0) "" "m" "f" [],
      by simp, rfl⟩

/-- Every value serializes to at least one token. -/
theorem one_le_sizeV (v : PyValue) : 1 ≤ sizeV v := by
  cases v <;> (unfold sizeV; omega)

mutual

/-- Deserializing a dumped value consumes exactly the dump and returns
the value, for any sufficient fuel. -/
theorem parseV_dump : ∀ (v : PyValue) (f : Nat) (rest : List PTok),
    sizeV v ≤ f → parseV f (dumpV v ++ rest) = some (v, rest)
  | v, 0, _, h => absurd h (by have := one_le_sizeV v; omega)
  | .pyNone, f + 1, rest, _ => by simp [dumpV, parseV]
  | .pyBool b, f + 1, rest, _ => by simp [dumpV, parseV]
  | .pyInt i, f + 1, rest, _ => by simp [dumpV, parseV]
  | .pyStr s, f + 1, rest, _ => by simp [dumpV, parseV]
  | .pyTuple xs, f + 1, rest, h => by
      have hx : sizeL xs ≤ f := by unfold sizeV at h; omega
      simp only [dumpV, List.cons_append, parseV]
      rw [parseL_dump xs f rest hx]
      rfl
  | .pyDict ps, f + 1, rest, h => by
      have hp : sizeP ps ≤ f := by unfold sizeV at h; omega
      simp only [dumpV, List.cons_append, parseV]
      rw [parseP_dump ps f rest hp]
      rfl

/-- Deserializing a dumped value list of known length consumes exactly
the dump. -/
theorem parseL_dump : ∀ (xs : List PyValue) (f : Nat) (rest : List PTok),
    sizeL xs ≤ f → parseL f xs.length (dumpL xs ++ rest) = some (xs, rest)
  | [], f, rest, _ => by simp [dumpL, parseL]
  | x :: xs, 0, _, h => absurd h
      (by have := one_le_sizeV x; unfold sizeL; omega)
  | x :: xs, f + 1, rest, h => by
      unfold sizeL at h
      have hx : sizeV x ≤ f + 1 := by omega
      have hxs : sizeL xs ≤ f := by have := one_le_sizeV x; omega
      simp only [dumpL, List.length_cons, List.append_assoc, parseL]
      rw [parseV_dump x (f + 1) (dumpL xs ++ rest) hx]
      dsimp only
      rw [parseL_dump xs f rest hxs]

/-- Deserializing a dumped pair list of known length consumes exactly
the dump. -/
theorem parseP_dump : ∀ (ps : List (PyValue × PyValue)) (f : Nat)
    (rest : List PTok),
    sizeP ps ≤ f → parseP f ps.length (dumpP ps ++ rest) = some (ps, rest)
  | [], f, rest, _ => by simp [dumpP, parseP]
  | (k, v) :: ps, 0, _, h => absurd h
      (by have := one_le_sizeV k; have := one_le_sizeV v; unfold sizeP; omega)
  | (k, v) :: ps, f + 1, rest, h => by
      unfold sizeP at h
      have hk : sizeV k ≤ f + 1 := by omega
      have hv : sizeV v ≤ f + 1 := by omega
      have hps : sizeP ps ≤ f := by
        have := one_le_sizeV k; have := one_le_sizeV v; omega
      simp only [dumpP, List.length_cons, List.append_assoc, parseP]
      rw [parseV_dump k (f + 1) (dumpV v ++ (dumpP ps ++ rest)) hk]
      dsimp only
      rw [parseV_dump v (f + 1) (dumpP ps ++ rest) hv]
      dsimp only
      rw [parseP_dump ps f rest hps]

end

mutual

/-- The dump of a value is exactly `sizeV` tokens long. -/
theorem dumpV_length : ∀ (v : PyValue), (dumpV v).length = sizeV v
  | .pyNone => rfl
  | .pyBool _ => rfl
  | .pyInt _ => rfl
  | .pyStr _ => rfl
  | .pyTuple xs => by
      simp only [dumpV, List.length_cons, sizeV, dumpL_length xs]
      try omega
  | .pyDict ps => by
      simp only [dumpV, List.length_cons, sizeV, dumpP_length ps]
      try omega

/-- The dump of a value list is exactly `sizeL` tokens long. -/
theorem dumpL_length : ∀ (xs : List PyValue), (dumpL xs).length = sizeL xs
  | [] => rfl
  | x :: xs => by
      simp only [dumpL, List.length_append, sizeL, dumpV_length x,
        dumpL_length xs]

/-- The dump of a pair list is exactly `sizeP` tokens long. -/
theorem dumpP_length : ∀ (ps : List (PyValue × PyValue)),
    (dumpP ps).length = sizeP ps
  | [] => rfl
  | (k, v) :: ps => by
      simp only [dumpP, List.length_append, sizeP, dumpV_length k,
        dumpV_length v, dumpP_length ps]
      try omega

end

/-- The deserializer inverts the serializer on whole blobs: the model of
`pickle.loads(pickle.dumps(obj)) == obj`. -/
theorem pickleLoads_dumpV (v : PyValue) : pickleLoads (dumpV v) = some v := by
  unfold pickleLoads
  have h : parseV ((dumpV v).length + 1) (dumpV v ++ []) = some (v, []) :=
    parseV_dump v ((dumpV v).length + 1) [] (by rw [dumpV_length]; omega)
  rw [List.append_nil] at h
  rw [h]

/-- C7: for every args tuple and kwargs mapping (non-string keys
included), a task stored by `register_callable` and read back through the
fetch path yields `args` and `kwargs` equal to the originals: the pickle
serialization followed by deserialization is the identity. -/
theorem register_fetch_roundtrip (tmod tname uuid ct : String)
    (now : DateTime) (sched : Option DateTime) (args : List PyValue)
    (kwargs : List (PyValue × PyValue)) (st' : TaskStore)
    (hok : register_callable TaskStore.empty tmod tname now uuid sched ct
        args kwargs = Except.ok st') :
    fetch_all_callable_entries st'.rows =
      some [TaskEntry.mk 1 uuid (sched.getD now) ct tmod tname args kwargs] := by
  unfold register_callable TaskStore.empty at hok
  simp only [List.any_nil, Bool.false_eq_true, if_false] at hok
  injection hok with hok
  subst hok
  simp only [fetch_all_callable_entries, List.nil_append, List.mapM_cons,
    List.mapM_nil, process_row, pickleDumpsArgs, pickleLoads_dumpV]
  rfl

/-- C7 witness: the roundtrip evaluated at concrete arguments including
a non-string (integer) kwargs key. -/
theorem register_fetch_roundtrip_witness :
    fetch_all_callable_entries
        (TaskStore.mk
          [TaskRow.mk 1 "u" (DateTime.mk 2024 1 1 0 0) "" "m" "f"
            (pickleDumpsArgs [.pyStr "pi", .pyInt 3]
              [(.pyInt 10, .pyStr "ten")])] 2).rows =
      some [TaskEntry.mk 1 "u" (DateTime.mk 2024 1 1 0 0) "" "m" "f"
        [.pyStr "pi", .pyInt 3] [(.pyInt 10, .pyStr "ten")]] :=
  register_fetch_roundtrip "m" "f" "u" "" (DateTime.mk 2024 1 1 0 0) none
    [.pyStr "pi", .pyInt 3] [(.pyInt 10, .pyStr "ten")]
    (TaskStore.mk
      [TaskRow.mk 1 "u" (DateTime.mk 2024 1 1 0 0) "" "m" "f"
        (pickleDumpsArgs [.pyStr "pi", .pyInt 3] [(.pyInt 10, .pyStr "ten")])]
      2)
    (by rfl)

namespace Schedule

/-- Every month has at least one day. -/
theorem one_le_daysInMonth (y m : Nat) : 1 ≤ daysInMonth y m := by
  unfold daysInMonth
  split_ifs <;> omega

/-- No month has more than 31 days. -/
theorem daysInMonth_le_31 (y m : Nat) : daysInMonth y m ≤ 31 := by
  unfold daysInMonth
  split_ifs <;> omega

/-- Advancing a valid datetime by one minute strictly increases its
linearization and stays valid. -/
theorem succMinute_sound (t : DateTime) (h : Valid t) :
    t.absMinutes < (succMinute t).absMinutes ∧ Valid (succMinute t) := by
  obtain ⟨h1, h2, h3, h4, h5, h6⟩ := h
  have hd31 : t.day ≤ 31 := le_trans h4 (daysInMonth_le_31 t.year t.month)
  have hdm1 : 1 ≤ daysInMonth t.year (t.month + 1) := one_le_daysInMonth _ _
  have hdm2 : 1 ≤ daysInMonth (t.year + 1) 1 := one_le_daysInMonth _ _
  unfold succMinute
  split_ifs with hm hh hd hmo
  all_goals constructor
  all_goals simp only [Valid, DateTime.absMinutes]
  all_goals omega

/-- Any datetime returned by the bounded minute scan lies at or after the
valid start point, and is itself valid. -/
theorem scan_next_le (spec : CronSpec) : ∀ (f : Nat) (t0 t : DateTime),
    Valid t0 → scan_next spec f t0 = some t →
    t0.absMinutes ≤ t.absMinutes ∧ Valid t := by
  intro f
  induction f with
  | zero => intro t0 t _ hs; simp [scan_next] at hs
  | succ f ih =>
    intro t0 t h0 hs
    unfold scan_next at hs
    by_cases hm : matchesSpec spec t0
    · rw [if_pos hm] at hs
      injection hs with hs
      subst hs
      exact ⟨le_refl _, h0⟩
    · rw [if_neg hm] at hs
      obtain ⟨hlt, hv⟩ := succMinute_sound t0 h0
      obtain ⟨hle, hvt⟩ := ih (succMinute t0) t hv hs
      exact ⟨le_trans (le_of_lt hlt) hle, hvt⟩

end Schedule

/-- C8: for every five-field crontab expression accepted by the parser
and every valid `from_time`, a next occurrence returned by the cron
scheduler model is strictly greater than `from_time`. -/
theorem get_next_schedule_strictly_future (ct : String) (now t : DateTime)
    (hv : Schedule.Valid now)
    (h : Schedule.get_next_schedule ct now = some t) :
    now.absMinutes < t.absMinutes := by
  unfold Schedule.get_next_schedule at h
  rcases hp : Schedule.parse_crontab ct with _ | spec <;> rw [hp] at h
  · exact absurd h (by simp)
  · obtain ⟨hlt, hv1⟩ := Schedule.succMinute_sound now hv
    obtain ⟨hle, _⟩ := Schedule.scan_next_le spec Schedule.CRON_SCAN_FUEL
      (Schedule.succMinute now) t hv1 h
    omega

/-- C8 witness: the every-minute expression evaluated at 2024-01-01
00:00 yields 2024-01-01 00:01, strictly in the future. -/
theorem get_next_schedule_strictly_future_witness :
    (DateTime.mk 2024 1 1 0 0).absMinutes <
      (DateTime.mk 2024 1 1 0 1).absMinutes :=
  get_next_schedule_strictly_future "* * * * *" (DateTime.mk 2024 1 1 0 0)
    (DateTime.mk 2024 1 1 0 1) (by decide) (by decide)

end Anacron
